import Mathlib

/-!
Verification development for the grin p2p wire-protocol message layer
(p2p/src/msg.rs): the message-type registry with per-type size limits,
the 11-byte frame header codec, forward-compatible handling of unknown
message types, the per-payload codecs, and the framed-write path with
chunked attachment streaming and separate traffic accounting.

Machine integers are modelled as Nat with explicit reductions modulo
2 ^ w exactly where the Rust code can overflow or truncate via casts.
Byte streams are lists of Nat consumed front to back.
-/

set_option maxHeartbeats 1000000
set_option maxRecDepth 4000

/-- Serialization error kinds, mirroring the ser::Error variants that the
codecs in msg.rs produce or propagate (TooLargeReadErr, CorruptedData,
UnexpectedData from expect_u8 mismatch, and an I/O style read failure). -/
inductive SerError where
  | ioErr : SerError
  | unexpectedData : SerError
  | corruptedData : SerError
  | tooLargeRead : SerError
deriving DecidableEq

/-- Modelled from the spec: the generic serialization reader (core::ser is
outside this crate) is a byte stream consumed front to back; a read either
fails with a ser error or returns a value together with the remaining
stream. -/
def ReadM (α : Type) : Type := List Nat → Except SerError (α × List Nat)

/-- Return a value without consuming input. -/
def rpure {α : Type} (a : α) : ReadM α := fun s => .ok (a, s)

/-- Sequence two reads, propagating failure. -/
def rbind {α β : Type} (m : ReadM α) (f : α → ReadM β) : ReadM β := fun s =>
  match m s with
  | .ok (a, t) => f a t
  | .error e => .error e

/-- Fail with the given ser error. -/
def readFail {α : Type} (e : SerError) : ReadM α := fun _ => .error e

/-- Modelled from the spec: read a single byte off the stream. -/
def readU8 : ReadM Nat := fun s =>
  match s with
  | [] => .error .ioErr
  | b :: rest => .ok (b, rest)

/-- Modelled from the spec: the expect-exact-byte-value-or-fail primitive
used for the magic bytes; a mismatch is an unexpected-data error. -/
def expectU8 (e : Nat) : ReadM Nat :=
  rbind readU8 fun b => if b = e then rpure b else readFail .unexpectedData

/-- Read k bytes in network (big-endian) order and recombine them. -/
def readBE : Nat → ReadM Nat
  | 0 => rpure 0
  | k + 1 => rbind readU8 fun b => rbind (readBE k) fun lo => rpure (b * 2 ^ (8 * k) + lo)

/-- Modelled from the spec: fixed-width 16-bit unsigned read, network order. -/
def readU16 : ReadM Nat := readBE 2

/-- Modelled from the spec: fixed-width 32-bit unsigned read, network order. -/
def readU32 : ReadM Nat := readBE 4

/-- Modelled from the spec: fixed-width 64-bit unsigned read, network order. -/
def readU64 : ReadM Nat := readBE 8

/-- Modelled from the spec: signed 32-bit read; the 4 bytes are interpreted
in two's complement. -/
def readI32 : ReadM Int :=
  rbind readU32 fun u => rpure (if u < 2 ^ 31 then (u : Int) else (u : Int) - 2 ^ 32)

/-- Read exactly k raw bytes. -/
def readFixedBytes : Nat → ReadM (List Nat)
  | 0 => rpure []
  | k + 1 => rbind readU8 fun b => rbind (readFixedBytes k) fun bs => rpure (b :: bs)

/-- Modelled from the spec: the length-prefixed byte-string read convention
(u64 length followed by that many raw bytes). -/
def readBytesWithLen : ReadM (List Nat) :=
  rbind readU64 fun len => readFixedBytes len

/-- Read a fixed count of elements with the given element reader. -/
def readCount {α : Type} (r : ReadM α) : Nat → ReadM (List α)
  | 0 => rpure []
  | k + 1 => rbind r fun a => rbind (readCount r k) fun as => rpure (a :: as)

/-- Modelled from the spec: write one byte; a wider value is truncated as by
a Rust u8 cast. -/
def writeU8 (n : Nat) : List Nat := [n % 256]

/-- Write the low k bytes of n in network (big-endian) order. -/
def writeBE : Nat → Nat → List Nat
  | 0, _ => []
  | k + 1, n => (n / 2 ^ (8 * k)) % 256 :: writeBE k n

/-- Modelled from the spec: fixed-width 16-bit unsigned write. -/
def writeU16 (n : Nat) : List Nat := writeBE 2 n

/-- Modelled from the spec: fixed-width 32-bit unsigned write. -/
def writeU32 (n : Nat) : List Nat := writeBE 4 n

/-- Modelled from the spec: fixed-width 64-bit unsigned write. -/
def writeU64 (n : Nat) : List Nat := writeBE 8 n

/-- Modelled from the spec: signed 32-bit write, two's complement. -/
def writeI32 (i : Int) : List Nat := writeU32 (i % 2 ^ 32).toNat

/-- Modelled from the spec: length-prefixed byte-string write (u64 length
then the raw bytes). -/
def writeBytes (b : List Nat) : List Nat := writeU64 b.length ++ b

/-- Concatenate the encodings of a list of elements. -/
def writeList {α : Type} (w : α → List Nat) : List α → List Nat
  | [] => []
  | a :: as => w a ++ writeList w as

/-- Chain parameters and configured protocol limits that msg.rs pulls from
sibling modules (global, consensus, types) that are outside src/: the
maximum block weight, the per-output weight divisor, the peer-address and
locator list bounds, the block-header list bound, and the known
capability-bit mask used by from_bits_truncate. -/
structure Params where
  maxBlockWeight : Nat
  blockOutputWeight : Nat
  maxPeerAddrs : Nat
  maxLocators : Nat
  maxBlockHeaders : Nat
  capMask : Nat
deriving DecidableEq

/-- Modelled from the spec: the active network identity, selecting the
2-byte magic constant (test networks collectively, floonet, mainnet). -/
inductive ChainTypes where
  | AutomatedTesting
  | UserTesting
  | Floonet
  | Mainnet
deriving DecidableEq

/-- Magic bytes for networks other than floonet and mainnet. -/
def OTHER_MAGIC : Nat × Nat := (73, 43)

/-- Magic bytes for the floonet test network. -/
def FLOONET_MAGIC : Nat × Nat := (83, 59)

/-- Magic bytes for mainnet. -/
def MAINNET_MAGIC : Nat × Nat := (97, 61)

/-- Select the magic pair for the active network, as fn magic in msg.rs. -/
def magic : ChainTypes → Nat × Nat
  | .Floonet => FLOONET_MAGIC
  | .Mainnet => MAINNET_MAGIC
  | _ => OTHER_MAGIC

/-- Message types with stable numeric codes 0..22, as the enum Type in
msg.rs (Type is a reserved word in Lean, hence the name MsgType). -/
inductive MsgType where
  | Error
  | Hand
  | Shake
  | Ping
  | Pong
  | GetPeerAddrs
  | PeerAddrs
  | GetHeaders
  | Header
  | Headers
  | GetBlock
  | Block
  | GetCompactBlock
  | CompactBlock
  | StemTransaction
  | Transaction
  | TxHashSetRequest
  | TxHashSetArchive
  | BanReason
  | GetTransaction
  | TransactionKernel
  | KernelDataRequest
  | KernelDataResponse
deriving DecidableEq

/-- Numeric code of each message type (the enum discriminants). -/
def MsgType.toU8 : MsgType → Nat
  | .Error => 0
  | .Hand => 1
  | .Shake => 2
  | .Ping => 3
  | .Pong => 4
  | .GetPeerAddrs => 5
  | .PeerAddrs => 6
  | .GetHeaders => 7
  | .Header => 8
  | .Headers => 9
  | .GetBlock => 10
  | .Block => 11
  | .GetCompactBlock => 12
  | .CompactBlock => 13
  | .StemTransaction => 14
  | .Transaction => 15
  | .TxHashSetRequest => 16
  | .TxHashSetArchive => 17
  | .BanReason => 18
  | .GetTransaction => 19
  | .TransactionKernel => 20
  | .KernelDataRequest => 21
  | .KernelDataResponse => 22

/-- Reverse lookup from a raw type byte, as Type::from_u8 generated by
enum_from_primitive: any byte outside 0..22 yields none. -/
def MsgType.fromU8 : Nat → Option MsgType
  | 0 => some .Error
  | 1 => some .Hand
  | 2 => some .Shake
  | 3 => some .Ping
  | 4 => some .Pong
  | 5 => some .GetPeerAddrs
  | 6 => some .PeerAddrs
  | 7 => some .GetHeaders
  | 8 => some .Header
  | 9 => some .Headers
  | 10 => some .GetBlock
  | 11 => some .Block
  | 12 => some .GetCompactBlock
  | 13 => some .CompactBlock
  | 14 => some .StemTransaction
  | 15 => some .Transaction
  | 16 => some .TxHashSetRequest
  | 17 => some .TxHashSetArchive
  | 18 => some .BanReason
  | 19 => some .GetTransaction
  | 20 => some .TransactionKernel
  | 21 => some .KernelDataRequest
  | 22 => some .KernelDataResponse
  | _ => none

/-- Max theoretical size of a block filled with outputs, as fn
max_block_size: (max_block_weight / BLOCK_OUTPUT_WEIGHT * 708) in 64-bit
arithmetic. -/
def max_block_size (p : Params) : Nat :=
  p.maxBlockWeight / p.blockOutputWeight * 708 % 2 ^ 64

/-- Max msg size when the msg type is unknown, as fn default_max_msg_size. -/
def default_max_msg_size (p : Params) : Nat :=
  max_block_size p

/-- Max msg size for each msg type, as fn max_msg_size. -/
def max_msg_size (p : Params) : MsgType → Nat
  | .Error => 0
  | .Hand => 128
  | .Shake => 88
  | .Ping => 16
  | .Pong => 16
  | .GetPeerAddrs => 4
  | .PeerAddrs => (4 + (1 + 16 + 2) * p.maxPeerAddrs) % 2 ^ 64
  | .GetHeaders => (1 + 32 * p.maxLocators) % 2 ^ 64
  | .Header => 365
  | .Headers => (2 + 365 * p.maxBlockHeaders) % 2 ^ 64
  | .GetBlock => 32
  | .Block => max_block_size p
  | .GetCompactBlock => 32
  | .CompactBlock => max_block_size p / 10
  | .StemTransaction => max_block_size p
  | .Transaction => max_block_size p
  | .TxHashSetRequest => 40
  | .TxHashSetArchive => 64
  | .BanReason => 64
  | .GetTransaction => 32
  | .TransactionKernel => 32
  | .KernelDataRequest => 0
  | .KernelDataResponse => 8

/-- Header of any protocol message: two magic bytes, the message type and
the total body length in bytes, as struct MsgHeader. -/
structure MsgHeader where
  magic0 : Nat
  magic1 : Nat
  msg_type : MsgType
  msg_len : Nat
deriving DecidableEq

/-- Serialized header length: 2 magic bytes + 1 type byte + 8 length bytes. -/
def MsgHeader.LEN : Nat := 11

/-- Create a header for the active network, as MsgHeader::new. -/
def MsgHeader.new (c : ChainTypes) (msg_type : MsgType) (len : Nat) : MsgHeader :=
  { magic0 := (magic c).1
    magic1 := (magic c).2
    msg_type := msg_type
    msg_len := len }

/-- Header encoder, as impl Writeable for MsgHeader: magic byte 0, magic
byte 1, the type code as u8, then the u64 length. -/
def MsgHeader.write (h : MsgHeader) : List Nat :=
  writeU8 h.magic0 ++ writeU8 h.magic1 ++ writeU8 h.msg_type.toU8 ++ writeU64 h.msg_len

/-- Result of decoding a header: a fully typed header for a known msg type,
or the raw declared length and type byte for an unknown one, as enum
MsgHeaderWrapper. -/
inductive MsgHeaderWrapper where
  | Known (h : MsgHeader)
  | Unknown (msg_len : Nat) (t : Nat)
deriving DecidableEq

/-- Header decoder, as impl Readable for MsgHeaderWrapper: expect the two
magic bytes, read the type byte and u64 length, then enforce the 4-times
per-type size ceiling for known types and the 4-times default ceiling for
unknown ones (64-bit arithmetic on the ceiling). -/
def MsgHeaderWrapper.read (p : Params) (c : ChainTypes) : ReadM MsgHeaderWrapper :=
  rbind (expectU8 (magic c).1) fun _ =>
  rbind (expectU8 (magic c).2) fun _ =>
  rbind readU8 fun t =>
  rbind readU64 fun msg_len =>
  match MsgType.fromU8 t with
  | some msg_type =>
    if msg_len > max_msg_size p msg_type * 4 % 2 ^ 64 then readFail .tooLargeRead
    else rpure (.Known { magic0 := (magic c).1, magic1 := (magic c).2,
                         msg_type := msg_type, msg_len := msg_len })
  | none =>
    if msg_len > default_max_msg_size p * 4 % 2 ^ 64 then readFail .tooLargeRead
    else rpure (.Unknown msg_len t)

/-- Errors of the p2p layer as far as this file raises them: a propagated
ser error or the distinct bad-message condition of read_expected_header. -/
inductive PError where
  | ser (e : SerError)
  | badMessage
deriving DecidableEq

/-- Read a header of a specific type, as fn read_expected_header: a Known
header of the expected type is returned; any other decode outcome (a Known
header of a different type or an Unknown header) is a bad-message error;
a decode failure is propagated as the underlying ser error. -/
def read_expected_header (p : Params) (c : ChainTypes) (header_type : MsgType)
    (s : List Nat) : Except PError (MsgHeader × List Nat) :=
  match MsgHeaderWrapper.read p c s with
  | .ok (.Known h, rest) =>
    if h.msg_type = header_type then .ok (h, rest) else .error .badMessage
  | .ok (.Unknown _ _, _) => .error .badMessage
  | .error e => .error (.ser e)

/-- Modelled from the spec: the attachment handle (a tokio File outside
this layer) reduced to the byte count its reads will yield in total. -/
structure File where
  size : Nat
deriving DecidableEq

/-- A message envelope: header, opaque serialized body, optional attachment
handle and negotiated protocol version, as struct Msg (the protocol
version marker is a u32 value). -/
structure Msg where
  header : MsgHeader
  body : List Nat
  attachment : Option File
  version : Nat
deriving DecidableEq

/-- Deconstruct a message into its constituent parts, as Msg::into_parts:
only the header, the body bytes and the protocol version are returned. -/
def Msg.into_parts (m : Msg) : MsgHeader × List Nat × Nat :=
  (m.header, m.body, m.version)

/-- Rebuild a message from parts, as Msg::from_parts: the attachment slot
is always empty. -/
def Msg.from_parts (header : MsgHeader) (body : List Nat) (version : Nat) : Msg :=
  { header := header, body := body, attachment := none, version := version }

/-- Attach a file handle, as Msg::add_attachment. -/
def Msg.add_attachment (m : Msg) (attachment : File) : Msg :=
  { m with attachment := some attachment }

/-- Observable effect of the write path: the sizes of the underlying stream
writes in order, the total reported to the tracker primary (sent) counter,
and the total reported to the quiet counter. -/
structure WriteEffects where
  writes : List Nat
  sent : Nat
  quiet : Nat
deriving DecidableEq

/-- Sizes yielded by the chunked attachment read loop: each iteration reads
min(8192, remaining) bytes until the source yields zero; fuel bounds the
iteration count. -/
def chunkSizes : Nat → Nat → List Nat
  | 0, _ => []
  | _, 0 => []
  | fuel + 1, r + 1 => min 8192 (r + 1) :: chunkSizes fuel (r + 1 - 8192)

/-- Modelled from the spec: a read of the attachment source into the 8 KiB
buffer yields min(8192, remaining) bytes, so a source of the given total
size produces this list of chunk writes. -/
def attachmentWrites (total : Nat) : List Nat :=
  chunkSizes (total / 8192 + 1) total

/-- The framed write path, as fn write_message: header and body are
serialized into one buffer and written as a single stream write whose
length (MsgHeader::LEN + body length) is reported to the tracker sent
counter; if an attachment is present its bytes follow in bounded chunks,
each chunk size reported to the quiet counter. -/
def write_message (m : Msg) : WriteEffects :=
  let len := MsgHeader.LEN + m.body.length
  match m.attachment with
  | none =>
    { writes := [(MsgHeader.write m.header).length + m.body.length]
      sent := len
      quiet := 0 }
  | some f =>
    { writes := ((MsgHeader.write m.header).length + m.body.length) :: attachmentWrites f.size
      sent := len
      quiet := (attachmentWrites f.size).sum }

/-- True when the byte is a UTF-8 continuation byte (0x80..0xBF). -/
def isCont (b : Nat) : Bool := 128 ≤ b && b ≤ 191

/-- Modelled from the spec: well-formed UTF-8 as checked by the external
String::from_utf8 (RFC 3629 byte ranges); a user-agent field failing this
check is rejected with a corrupted-data error. -/
def utf8Valid : List Nat → Bool
  | [] => true
  | b :: rest =>
    if b ≤ 127 then utf8Valid rest
    else if 194 ≤ b && b ≤ 223 then
      match rest with
      | c1 :: r => isCont c1 && utf8Valid r
      | [] => false
    else if b = 224 then
      match rest with
      | c1 :: c2 :: r => (160 ≤ c1 && c1 ≤ 191) && isCont c2 && utf8Valid r
      | _ => false
    else if (225 ≤ b && b ≤ 236) || (238 ≤ b && b ≤ 239) then
      match rest with
      | c1 :: c2 :: r => isCont c1 && isCont c2 && utf8Valid r
      | _ => false
    else if b = 237 then
      match rest with
      | c1 :: c2 :: r => (128 ≤ c1 && c1 ≤ 159) && isCont c2 && utf8Valid r
      | _ => false
    else if b = 240 then
      match rest with
      | c1 :: c2 :: c3 :: r => (144 ≤ c1 && c1 ≤ 191) && isCont c2 && isCont c3 && utf8Valid r
      | _ => false
    else if 241 ≤ b && b ≤ 243 then
      match rest with
      | c1 :: c2 :: c3 :: r => isCont c1 && isCont c2 && isCont c3 && utf8Valid r
      | _ => false
    else if b = 244 then
      match rest with
      | c1 :: c2 :: c3 :: r => (128 ≤ c1 && c1 ≤ 143) && isCont c2 && isCont c3 && utf8Valid r
      | _ => false
    else false

/-- Modelled from the spec: a peer network address, an external domain
field type serializing as a version flag byte, the address bytes (4 octets
for v4, 8 16-bit segments for v6) and a 16-bit port, within the 1 + 16 + 2
byte budget the size table allots per address. -/
inductive PeerAddr where
  | v4 (a0 a1 a2 a3 : Nat) (port : Nat)
  | v6 (s0 s1 s2 s3 s4 s5 s6 s7 : Nat) (port : Nat)
deriving DecidableEq

/-- Modelled from the spec: peer address encoder. -/
def PeerAddr.write : PeerAddr → List Nat
  | .v4 a0 a1 a2 a3 port =>
    writeU8 0 ++ writeU8 a0 ++ writeU8 a1 ++ writeU8 a2 ++ writeU8 a3 ++ writeU16 port
  | .v6 s0 s1 s2 s3 s4 s5 s6 s7 port =>
    writeU8 1 ++ writeU16 s0 ++ writeU16 s1 ++ writeU16 s2 ++ writeU16 s3 ++
    writeU16 s4 ++ writeU16 s5 ++ writeU16 s6 ++ writeU16 s7 ++ writeU16 port

/-- Modelled from the spec: peer address decoder; an unrecognized version
flag is corrupted data. -/
def PeerAddr.read : ReadM PeerAddr :=
  rbind readU8 fun flag =>
  if flag = 0 then
    rbind readU8 fun a0 => rbind readU8 fun a1 => rbind readU8 fun a2 =>
    rbind readU8 fun a3 => rbind readU16 fun port =>
    rpure (.v4 a0 a1 a2 a3 port)
  else if flag = 1 then
    rbind readU16 fun s0 => rbind readU16 fun s1 => rbind readU16 fun s2 =>
    rbind readU16 fun s3 => rbind readU16 fun s4 => rbind readU16 fun s5 =>
    rbind readU16 fun s6 => rbind readU16 fun s7 => rbind readU16 fun port =>
    rpure (.v6 s0 s1 s2 s3 s4 s5 s6 s7 port)
  else readFail .corruptedData

/-- Field values representable by the Rust address types: octets are bytes,
segments and ports are 16-bit. -/
def PeerAddr.valid : PeerAddr → Bool
  | .v4 a0 a1 a2 a3 port =>
    decide (a0 < 256 ∧ a1 < 256 ∧ a2 < 256 ∧ a3 < 256 ∧ port < 2 ^ 16)
  | .v6 s0 s1 s2 s3 s4 s5 s6 s7 port =>
    decide (s0 < 2 ^ 16 ∧ s1 < 2 ^ 16 ∧ s2 < 2 ^ 16 ∧ s3 < 2 ^ 16 ∧ s4 < 2 ^ 16 ∧
      s5 < 2 ^ 16 ∧ s6 < 2 ^ 16 ∧ s7 < 2 ^ 16 ∧ port < 2 ^ 16)

/-- First part of a handshake, as struct Hand: the hash, difficulty,
address and capability field types are external domain types, modelled
here as a 32-byte hash, a u64 difficulty, peer addresses as above and a
u32 capability bitset; the user agent is kept as its UTF-8 bytes. -/
structure Hand where
  version : Nat
  capabilities : Nat
  nonce : Nat
  genesis : List Nat
  total_difficulty : Nat
  sender_addr : PeerAddr
  receiver_addr : PeerAddr
  user_agent : List Nat
deriving DecidableEq

/-- Handshake-offer encoder, as impl Writeable for Hand: protocol version,
capability bits, nonce, total difficulty, sender address, receiver
address, length-prefixed user agent, and the genesis hash last. -/
def Hand.write (x : Hand) : List Nat :=
  writeU32 x.version ++ writeU32 x.capabilities ++ writeU64 x.nonce ++
  writeU64 x.total_difficulty ++ PeerAddr.write x.sender_addr ++
  PeerAddr.write x.receiver_addr ++ writeBytes x.user_agent ++ x.genesis

/-- Stated from the spec claim (for comparison with Hand.write): an encoder
writing version, capability bitset, nonce, genesis identifier, accumulated
difficulty, sender address, receiver address, then the user-agent string. -/
def handClaimOrderWrite (x : Hand) : List Nat :=
  writeU32 x.version ++ writeU32 x.capabilities ++ writeU64 x.nonce ++ x.genesis ++
  writeU64 x.total_difficulty ++ PeerAddr.write x.sender_addr ++
  PeerAddr.write x.receiver_addr ++ writeBytes x.user_agent

/-- Handshake-offer decoder, as impl Readable for Hand: fields in the same
order as the encoder, capability bits truncated to the known mask, invalid
UTF-8 in the user agent a corrupted-data error raised before the genesis
hash is read. -/
def Hand.read (p : Params) : ReadM Hand :=
  rbind readU32 fun version =>
  rbind readU32 fun capab =>
  rbind readU64 fun nonce =>
  rbind readU64 fun total_difficulty =>
  rbind PeerAddr.read fun sender_addr =>
  rbind PeerAddr.read fun receiver_addr =>
  rbind readBytesWithLen fun ua =>
  if utf8Valid ua then
    rbind (readFixedBytes 32) fun genesis =>
    rpure { version := version, capabilities := capab &&& p.capMask, nonce := nonce,
            genesis := genesis, total_difficulty := total_difficulty,
            sender_addr := sender_addr, receiver_addr := receiver_addr, user_agent := ua }
  else readFail .corruptedData

/-- Field values a Rust Hand can hold: 32-bit version, capability bits
within the known mask, 64-bit nonce and difficulty, a 32-byte genesis
hash, representable addresses and a valid UTF-8 user agent. -/
def Hand.valid (p : Params) (x : Hand) : Bool :=
  decide (x.version < 2 ^ 32 ∧ x.capabilities &&& p.capMask = x.capabilities ∧
    x.capabilities < 2 ^ 32 ∧ x.nonce < 2 ^ 64 ∧ x.genesis.length = 32 ∧
    x.total_difficulty < 2 ^ 64 ∧ PeerAddr.valid x.sender_addr = true ∧
    PeerAddr.valid x.receiver_addr = true ∧ utf8Valid x.user_agent = true ∧
    x.user_agent.length < 2 ^ 64)

/-- Second part of a handshake, as struct Shake. -/
structure Shake where
  version : Nat
  capabilities : Nat
  genesis : List Nat
  total_difficulty : Nat
  user_agent : List Nat
deriving DecidableEq

/-- Handshake-reply encoder, as impl Writeable for Shake. -/
def Shake.write (x : Shake) : List Nat :=
  writeU32 x.version ++ writeU32 x.capabilities ++ writeU64 x.total_difficulty ++
  writeBytes x.user_agent ++ x.genesis

/-- Handshake-reply decoder, as impl Readable for Shake. -/
def Shake.read (p : Params) : ReadM Shake :=
  rbind readU32 fun version =>
  rbind readU32 fun capab =>
  rbind readU64 fun total_difficulty =>
  rbind readBytesWithLen fun ua =>
  if utf8Valid ua then
    rbind (readFixedBytes 32) fun genesis =>
    rpure { version := version, capabilities := capab &&& p.capMask,
            genesis := genesis, total_difficulty := total_difficulty, user_agent := ua }
  else readFail .corruptedData

/-- Field values a Rust Shake can hold. -/
def Shake.valid (p : Params) (x : Shake) : Bool :=
  decide (x.version < 2 ^ 32 ∧ x.capabilities &&& p.capMask = x.capabilities ∧
    x.capabilities < 2 ^ 32 ∧ x.genesis.length = 32 ∧ x.total_difficulty < 2 ^ 64 ∧
    utf8Valid x.user_agent = true ∧ x.user_agent.length < 2 ^ 64)

/-- Peer-discovery request, as struct GetPeerAddrs. -/
structure GetPeerAddrs where
  capabilities : Nat
deriving DecidableEq

/-- Encoder, as impl Writeable for GetPeerAddrs. -/
def GetPeerAddrs.write (x : GetPeerAddrs) : List Nat :=
  writeU32 x.capabilities

/-- Decoder, as impl Readable for GetPeerAddrs. -/
def GetPeerAddrs.read (p : Params) : ReadM GetPeerAddrs :=
  rbind readU32 fun capab => rpure { capabilities := capab &&& p.capMask }

/-- Field values a Rust GetPeerAddrs can hold. -/
def GetPeerAddrs.valid (p : Params) (x : GetPeerAddrs) : Bool :=
  decide (x.capabilities &&& p.capMask = x.capabilities ∧ x.capabilities < 2 ^ 32)

/-- Peer-discovery response, as struct PeerAddrs. -/
structure PeerAddrs where
  peers : List PeerAddr
deriving DecidableEq

/-- Encoder, as impl Writeable for PeerAddrs: u32 count then the
addresses. -/
def PeerAddrs.write (x : PeerAddrs) : List Nat :=
  writeU32 x.peers.length ++ writeList PeerAddr.write x.peers

/-- Decoder, as impl Readable for PeerAddrs: a count above MAX_PEER_ADDRS
is an oversize error, a zero count yields the empty list with no further
reads. -/
def PeerAddrs.read (p : Params) : ReadM PeerAddrs :=
  rbind readU32 fun peer_count =>
  if peer_count > p.maxPeerAddrs then readFail .tooLargeRead
  else if peer_count = 0 then rpure { peers := [] }
  else rbind (readCount PeerAddr.read peer_count) fun peers => rpure { peers := peers }

/-- Field values a Rust PeerAddrs can hold within the configured bound. -/
def PeerAddrs.valid (p : Params) (x : PeerAddrs) : Bool :=
  decide (x.peers.length ≤ p.maxPeerAddrs ∧ ∀ a ∈ x.peers, PeerAddr.valid a = true)

/-- Communication-error payload, as struct PeerError. -/
structure PeerError where
  code : Nat
  message : List Nat
deriving DecidableEq

/-- Encoder, as impl Writeable for PeerError. -/
def PeerError.write (x : PeerError) : List Nat :=
  writeU32 x.code ++ writeBytes x.message

/-- Decoder, as impl Readable for PeerError: a non-UTF-8 message is a
corrupted-data error. -/
def PeerError.read : ReadM PeerError :=
  rbind readU32 fun code =>
  rbind readBytesWithLen fun msg =>
  if utf8Valid msg then rpure { code := code, message := msg }
  else readFail .corruptedData

/-- Field values a Rust PeerError can hold. -/
def PeerError.valid (x : PeerError) : Bool :=
  decide (x.code < 2 ^ 32 ∧ utf8Valid x.message = true ∧ x.message.length < 2 ^ 64)

/-- Block locator, as struct Locator: an ordered list of 32-byte hashes. -/
structure Locator where
  hashes : List (List Nat)
deriving DecidableEq

/-- Encoder, as impl Writeable for Locator: u8 count (a Rust u8 cast of the
length) then the hashes. -/
def Locator.write (x : Locator) : List Nat :=
  writeU8 x.hashes.length ++ writeList id x.hashes

/-- Decoder, as impl Readable for Locator: a count above the u8 cast of
MAX_LOCATORS is an oversize error. -/
def Locator.read (p : Params) : ReadM Locator :=
  rbind readU8 fun len =>
  if len > p.maxLocators % 256 then readFail .tooLargeRead
  else rbind (readCount (readFixedBytes 32) len) fun hashes => rpure { hashes := hashes }

/-- Field values a Rust Locator can hold within the configured bound. -/
def Locator.valid (p : Params) (x : Locator) : Bool :=
  decide (x.hashes.length ≤ p.maxLocators ∧ ∀ h ∈ x.hashes, h.length = 32)

/-- An external field codec contract, used for the block-header records of
the Headers payload: block headers are an out-of-scope domain type that
must satisfy the generic read/write contract. -/
structure FieldCodec (α : Type) where
  write : α → List Nat
  read : ReadM α

/-- Header-list encoder, as impl Writeable for Headers: u16 count (a Rust
u16 cast of the length) then the header records. -/
def Headers.write {α : Type} (cd : FieldCodec α) (headers : List α) : List Nat :=
  writeU16 headers.length ++ writeList cd.write headers

/-- Modelled from the spec: the header-list decoder (impl Readable for
Headers lives outside this file): u16 element count, then that many header
records, with no explicit upper-bound check. -/
def Headers.read {α : Type} (cd : FieldCodec α) : ReadM (List α) :=
  rbind readU16 fun n => readCount cd.read n

/-- Heartbeat request, as struct Ping. -/
structure Ping where
  total_difficulty : Nat
  height : Nat
deriving DecidableEq

/-- Encoder, as impl Writeable for Ping. -/
def Ping.write (x : Ping) : List Nat :=
  writeU64 x.total_difficulty ++ writeU64 x.height

/-- Decoder, as impl Readable for Ping. -/
def Ping.read : ReadM Ping :=
  rbind readU64 fun total_difficulty =>
  rbind readU64 fun height =>
  rpure { total_difficulty := total_difficulty, height := height }

/-- Field values a Rust Ping can hold. -/
def Ping.valid (x : Ping) : Bool :=
  decide (x.total_difficulty < 2 ^ 64 ∧ x.height < 2 ^ 64)

/-- Heartbeat response, as struct Pong, identical shape to Ping. -/
structure Pong where
  total_difficulty : Nat
  height : Nat
deriving DecidableEq

/-- Encoder, as impl Writeable for Pong. -/
def Pong.write (x : Pong) : List Nat :=
  writeU64 x.total_difficulty ++ writeU64 x.height

/-- Decoder, as impl Readable for Pong. -/
def Pong.read : ReadM Pong :=
  rbind readU64 fun total_difficulty =>
  rbind readU64 fun height =>
  rpure { total_difficulty := total_difficulty, height := height }

/-- Field values a Rust Pong can hold. -/
def Pong.valid (x : Pong) : Bool :=
  decide (x.total_difficulty < 2 ^ 64 ∧ x.height < 2 ^ 64)

/-- Modelled from the spec: the closed set of known ban reasons with their
stable signed 32-bit codes (the ReasonForBan enum lives outside this
file). -/
inductive ReasonForBan where
  | None
  | BadBlock
  | BadCompactBlock
  | BadBlockHeader
  | BadTxHashSet
  | ManualBan
  | FraudHeight
  | BadHandshake
deriving DecidableEq

/-- Numeric code of each ban reason. -/
def ReasonForBan.toI32 : ReasonForBan → Int
  | .None => 0
  | .BadBlock => 1
  | .BadCompactBlock => 2
  | .BadBlockHeader => 3
  | .BadTxHashSet => 4
  | .ManualBan => 5
  | .FraudHeight => 6
  | .BadHandshake => 7

/-- Modelled from the spec: reverse lookup from a signed 32-bit code; any
code outside the closed set yields none. -/
def ReasonForBan.fromI32 (i : Int) : Option ReasonForBan :=
  if i = 0 then some .None
  else if i = 1 then some .BadBlock
  else if i = 2 then some .BadCompactBlock
  else if i = 3 then some .BadBlockHeader
  else if i = 4 then some .BadTxHashSet
  else if i = 5 then some .ManualBan
  else if i = 6 then some .FraudHeight
  else if i = 7 then some .BadHandshake
  else none

/-- Ban-notice payload, as struct BanReason. -/
structure BanReason where
  ban_reason : ReasonForBan
deriving DecidableEq

/-- Encoder, as impl Writeable for BanReason: the reason code as i32. -/
def BanReason.write (x : BanReason) : List Nat :=
  writeI32 x.ban_reason.toI32

/-- Decoder, as impl Readable for BanReason: a failed i32 read is replaced
by the sentinel code 0 and decoding continues (the reader state is left as
it was); a successfully read code outside the known set is corrupted
data. -/
def BanReason.read : ReadM BanReason := fun s =>
  match readI32 s with
  | .ok (code, rest) =>
    match ReasonForBan.fromI32 code with
    | some r => .ok ({ ban_reason := r }, rest)
    | none => .error .corruptedData
  | .error _ =>
    match ReasonForBan.fromI32 0 with
    | some r => .ok ({ ban_reason := r }, s)
    | none => .error .corruptedData

/-- Txhashset snapshot request, as struct TxHashSetRequest. -/
structure TxHashSetRequest where
  hash : List Nat
  height : Nat
deriving DecidableEq

/-- Encoder, as impl Writeable for TxHashSetRequest. -/
def TxHashSetRequest.write (x : TxHashSetRequest) : List Nat :=
  x.hash ++ writeU64 x.height

/-- Decoder, as impl Readable for TxHashSetRequest. -/
def TxHashSetRequest.read : ReadM TxHashSetRequest :=
  rbind (readFixedBytes 32) fun hash =>
  rbind readU64 fun height =>
  rpure { hash := hash, height := height }

/-- Field values a Rust TxHashSetRequest can hold. -/
def TxHashSetRequest.valid (x : TxHashSetRequest) : Bool :=
  decide (x.hash.length = 32 ∧ x.height < 2 ^ 64)

/-- Txhashset archive descriptor, as struct TxHashSetArchive. -/
structure TxHashSetArchive where
  hash : List Nat
  height : Nat
  bytes : Nat
deriving DecidableEq

/-- Encoder, as impl Writeable for TxHashSetArchive. -/
def TxHashSetArchive.write (x : TxHashSetArchive) : List Nat :=
  x.hash ++ writeU64 x.height ++ writeU64 x.bytes

/-- Decoder, as impl Readable for TxHashSetArchive. -/
def TxHashSetArchive.read : ReadM TxHashSetArchive :=
  rbind (readFixedBytes 32) fun hash =>
  rbind readU64 fun height =>
  rbind readU64 fun bytes =>
  rpure { hash := hash, height := height, bytes := bytes }

/-- Field values a Rust TxHashSetArchive can hold. -/
def TxHashSetArchive.valid (x : TxHashSetArchive) : Bool :=
  decide (x.hash.length = 32 ∧ x.height < 2 ^ 64 ∧ x.bytes < 2 ^ 64)

/-- Kernel-data request, as struct KernelDataRequest: empty body. -/
structure KernelDataRequest where
deriving DecidableEq

/-- Encoder, as impl Writeable for KernelDataRequest: writes nothing. -/
def KernelDataRequest.write (_x : KernelDataRequest) : List Nat := []

/-- Modelled from the spec: kernel-data request decoder (no Readable impl
is given in this file): an empty body reads nothing. -/
def KernelDataRequest.read : ReadM KernelDataRequest :=
  rpure {}

/-- Kernel-data response, as struct KernelDataResponse. -/
structure KernelDataResponse where
  bytes : Nat
deriving DecidableEq

/-- Encoder, as impl Writeable for KernelDataResponse. -/
def KernelDataResponse.write (x : KernelDataResponse) : List Nat :=
  writeU64 x.bytes

/-- Decoder, as impl Readable for KernelDataResponse. -/
def KernelDataResponse.read : ReadM KernelDataResponse :=
  rbind readU64 fun bytes => rpure { bytes := bytes }

/-- Field values a Rust KernelDataResponse can hold. -/
def KernelDataResponse.valid (x : KernelDataResponse) : Bool :=
  decide (x.bytes < 2 ^ 64)

/-- Evaluation rule for rbind when the first read succeeds. -/
theorem rbind_ok {α β : Type} {m : ReadM α} {s t : List Nat} {a : α}
    (f : α → ReadM β) (h : m s = .ok (a, t)) : rbind m f s = f a t := by
  simp [rbind, h]

/-- Evaluation rule for rbind when the first read fails. -/
theorem rbind_err {α β : Type} {m : ReadM α} {s : List Nat} {e : SerError}
    (f : α → ReadM β) (h : m s = .error e) : rbind m f s = .error e := by
  simp [rbind, h]

/-- A byte read off a nonempty stream returns its head. -/
theorem readU8_cons (b : Nat) (s : List Nat) : readU8 (b :: s) = .ok (b, s) := rfl

/-- Expecting the byte that is at the head of the stream succeeds. -/
theorem expectU8_self (e : Nat) (s : List Nat) : expectU8 e (e :: s) = .ok (e, s) := by
  simp [expectU8, rbind, readU8, rpure]

/-- A big-endian write always produces exactly k bytes. -/
theorem writeBE_length (k n : Nat) : (writeBE k n).length = k := by
  induction k generalizing n with
  | zero => rfl
  | succ k ih => simp [writeBE, ih]

/-- Reading back a big-endian write recovers the value modulo 2 ^ (8 k)
and leaves the rest of the stream untouched. -/
theorem readBE_writeBE (k : Nat) : ∀ (n : Nat) (rest : List Nat),
    readBE k (writeBE k n ++ rest) = .ok (n % 2 ^ (8 * k), rest) := by
  induction k with
  | zero =>
    intro n rest
    simp [readBE, writeBE, rpure, Nat.mul_zero, Nat.pow_zero, Nat.mod_one]
  | succ k ih =>
    intro n rest
    have hcons : writeBE (k + 1) n ++ rest = (n / 2 ^ (8 * k)) % 256 :: (writeBE k n ++ rest) := by
      simp [writeBE]
    rw [hcons, readBE, rbind_ok _ (readU8_cons _ _), rbind_ok _ (ih n rest)]
    have hpow : 2 ^ (8 * (k + 1)) = 2 ^ (8 * k) * 256 := by
      rw [Nat.mul_succ, Nat.pow_add]
    simp only [rpure, hpow, Nat.mod_mul]
    have harith : n / 2 ^ (8 * k) % 256 * 2 ^ (8 * k) + n % 2 ^ (8 * k) =
        n % 2 ^ (8 * k) + 2 ^ (8 * k) * (n / 2 ^ (8 * k) % 256) := by ring
    rw [harith]

/-- Reading back a big-endian write of an in-range value recovers it. -/
theorem readBE_writeBE_of_lt {k n : Nat} (h : n < 2 ^ (8 * k)) (rest : List Nat) :
    readBE k (writeBE k n ++ rest) = .ok (n, rest) := by
  rw [readBE_writeBE, Nat.mod_eq_of_lt h]

/-- u16 round trip for values below 2 ^ 16. -/
theorem readU16_writeU16 {n : Nat} (h : n < 2 ^ 16) (rest : List Nat) :
    readU16 (writeU16 n ++ rest) = .ok (n, rest) := by
  have h2 : n < 2 ^ (8 * 2) := by norm_num at h ⊢; exact h
  exact readBE_writeBE_of_lt h2 rest

/-- u32 round trip for values below 2 ^ 32. -/
theorem readU32_writeU32 {n : Nat} (h : n < 2 ^ 32) (rest : List Nat) :
    readU32 (writeU32 n ++ rest) = .ok (n, rest) := by
  have h2 : n < 2 ^ (8 * 4) := by norm_num at h ⊢; exact h
  exact readBE_writeBE_of_lt h2 rest

/-- u64 round trip for values below 2 ^ 64. -/
theorem readU64_writeU64 {n : Nat} (h : n < 2 ^ 64) (rest : List Nat) :
    readU64 (writeU64 n ++ rest) = .ok (n, rest) := by
  have h2 : n < 2 ^ (8 * 8) := by norm_num at h ⊢; exact h
  exact readBE_writeBE_of_lt h2 rest

/-- A fixed-bytes read of exactly the length of a list reads it back. -/
theorem readFixedBytes_append : ∀ (l rest : List Nat),
    readFixedBytes l.length (l ++ rest) = .ok (l, rest) := by
  intro l
  induction l with
  | nil => intro rest; rfl
  | cons b bs ih =>
    intro rest
    have : (b :: bs).length = bs.length + 1 := rfl
    rw [this, List.cons_append, readFixedBytes, rbind_ok _ (readU8_cons _ _),
      rbind_ok _ (ih rest)]
    rfl

/-- A fixed-bytes read at a stated length reads an equal-length list back. -/
theorem readFixedBytes_exact {n : Nat} (l : List Nat) (h : l.length = n)
    (rest : List Nat) : readFixedBytes n (l ++ rest) = .ok (l, rest) := by
  rw [← h]
  exact readFixedBytes_append l rest

/-- The length-prefixed byte-string read inverts the write when the length
fits a u64. -/
theorem readBytesWithLen_write (b : List Nat) (h : b.length < 2 ^ 64)
    (rest : List Nat) :
    readBytesWithLen (writeBytes b ++ rest) = .ok (b, rest) := by
  rw [writeBytes, List.append_assoc, readBytesWithLen,
    rbind_ok _ (readU64_writeU64 h (b ++ rest))]
  exact readFixedBytes_append b rest

/-- A counted read inverts a counted write when every element written
round-trips. -/
theorem readCount_writeList {α : Type} (r : ReadM α) (w : α → List Nat) :
    ∀ (l : List α) (rest : List Nat),
      (∀ a ∈ l, ∀ rs : List Nat, r (w a ++ rs) = .ok (a, rs)) →
      readCount r l.length (writeList w l ++ rest) = .ok (l, rest) := by
  intro l
  induction l with
  | nil => intro rest _; rfl
  | cons a as ih =>
    intro rest hall
    have h1 : r (w a ++ (writeList w as ++ rest)) = .ok (a, writeList w as ++ rest) :=
      hall a (List.mem_cons_self a as) _
    have h2 : readCount r as.length (writeList w as ++ rest) = .ok (as, rest) :=
      ih rest fun x hx rs => hall x (List.mem_cons_of_mem a hx) rs
    have : (a :: as).length = as.length + 1 := rfl
    rw [this, writeList, List.append_assoc, readCount, rbind_ok _ h1, rbind_ok _ h2]
    rfl

/-- A signed 32-bit read after an unsigned 32-bit write of a value below
2 ^ 31 yields the value as a nonnegative integer. -/
theorem readI32_writeU32_small {u : Nat} (h : u < 2 ^ 31) (rest : List Nat) :
    readI32 (writeU32 u ++ rest) = .ok ((u : Int), rest) := by
  have h32 : u < 2 ^ 32 := lt_trans h (by norm_num)
  rw [readI32, rbind_ok _ (readU32_writeU32 h32 rest)]
  simp only [rpure]
  rw [if_pos h]

/-- A representable peer address decodes back to itself. -/
theorem peerAddr_roundtrip (a : PeerAddr) (h : PeerAddr.valid a = true)
    (rest : List Nat) : PeerAddr.read (PeerAddr.write a ++ rest) = .ok (a, rest) := by
  cases a with
  | v4 a0 a1 a2 a3 port =>
    simp only [PeerAddr.valid, decide_eq_true_eq] at h
    obtain ⟨h0, h1, h2, h3, hp⟩ := h
    simp [PeerAddr.read, PeerAddr.write, writeU8, rbind, readU8, rpure,
      Nat.mod_eq_of_lt h0, Nat.mod_eq_of_lt h1, Nat.mod_eq_of_lt h2,
      Nat.mod_eq_of_lt h3, readU16_writeU16 hp]
  | v6 s0 s1 s2 s3 s4 s5 s6 s7 port =>
    simp only [PeerAddr.valid, decide_eq_true_eq] at h
    obtain ⟨h0, h1, h2, h3, h4, h5, h6, h7, hp⟩ := h
    simp [PeerAddr.read, PeerAddr.write, writeU8, rbind, readU8, rpure,
      readU16_writeU16 h0, readU16_writeU16 h1, readU16_writeU16 h2,
      readU16_writeU16 h3, readU16_writeU16 h4, readU16_writeU16 h5,
      readU16_writeU16 h6, readU16_writeU16 h7, readU16_writeU16 hp]

/-- A valid handshake offer decodes back to itself. -/
theorem hand_roundtrip (p : Params) (x : Hand) (rest : List Nat)
    (h : Hand.valid p x = true) :
    Hand.read p (Hand.write x ++ rest) = .ok (x, rest) := by
  obtain ⟨version, capabilities, nonce, genesis, total_difficulty,
    sender_addr, receiver_addr, ua⟩ := x
  simp only [Hand.valid, decide_eq_true_eq] at h
  obtain ⟨hv, hcm, hc, hn, hg, hd, hsa, hra, hu, hul⟩ := h
  simp [Hand.write, Hand.read, List.append_assoc, rbind, rpure,
    readU32_writeU32 hv, readU32_writeU32 hc, readU64_writeU64 hn,
    readU64_writeU64 hd, peerAddr_roundtrip _ hsa, peerAddr_roundtrip _ hra,
    readBytesWithLen_write _ hul, hu, readFixedBytes_exact genesis hg, hcm]

/-- A valid handshake reply decodes back to itself. -/
theorem shake_roundtrip (p : Params) (x : Shake) (rest : List Nat)
    (h : Shake.valid p x = true) :
    Shake.read p (Shake.write x ++ rest) = .ok (x, rest) := by
  obtain ⟨version, capabilities, genesis, total_difficulty, ua⟩ := x
  simp only [Shake.valid, decide_eq_true_eq] at h
  obtain ⟨hv, hcm, hc, hg, hd, hu, hul⟩ := h
  simp [Shake.write, Shake.read, List.append_assoc, rbind, rpure,
    readU32_writeU32 hv, readU32_writeU32 hc, readU64_writeU64 hd,
    readBytesWithLen_write _ hul, hu, readFixedBytes_exact genesis hg, hcm]

/-- A valid peer-discovery request decodes back to itself. -/
theorem getPeerAddrs_roundtrip (p : Params) (x : GetPeerAddrs) (rest : List Nat)
    (h : GetPeerAddrs.valid p x = true) :
    GetPeerAddrs.read p (GetPeerAddrs.write x ++ rest) = .ok (x, rest) := by
  obtain ⟨capabilities⟩ := x
  simp only [GetPeerAddrs.valid, decide_eq_true_eq] at h
  obtain ⟨hcm, hc⟩ := h
  simp [GetPeerAddrs.write, GetPeerAddrs.read, rbind, rpure,
    readU32_writeU32 hc, hcm]

/-- A valid bounded peer-address list decodes back to itself. -/
theorem peerAddrs_roundtrip (p : Params) (x : PeerAddrs) (rest : List Nat)
    (hmax : p.maxPeerAddrs < 2 ^ 32) (h : PeerAddrs.valid p x = true) :
    PeerAddrs.read p (PeerAddrs.write x ++ rest) = .ok (x, rest) := by
  obtain ⟨peers⟩ := x
  simp only [PeerAddrs.valid, decide_eq_true_eq] at h
  obtain ⟨hlen, hall⟩ := h
  have hlen32 : peers.length < 2 ^ 32 := lt_of_le_of_lt hlen hmax
  simp only [PeerAddrs.write, PeerAddrs.read, List.append_assoc]
  rw [rbind_ok _ (readU32_writeU32 hlen32 _), if_neg (Nat.not_lt.mpr hlen)]
  cases peers with
  | nil => simp [writeList, rpure]
  | cons q qs =>
    have hne : (q :: qs).length ≠ 0 := by simp
    rw [if_neg hne,
      rbind_ok _ (readCount_writeList _ _ (q :: qs) rest
        fun a ha rs => peerAddr_roundtrip a (hall a ha) rs)]
    rfl

/-- A valid communication-error payload decodes back to itself. -/
theorem peerError_roundtrip (x : PeerError) (rest : List Nat)
    (h : PeerError.valid x = true) :
    PeerError.read (PeerError.write x ++ rest) = .ok (x, rest) := by
  obtain ⟨code, message⟩ := x
  simp only [PeerError.valid, decide_eq_true_eq] at h
  obtain ⟨hc, hm, hml⟩ := h
  simp [PeerError.write, PeerError.read, List.append_assoc, rbind, rpure,
    readU32_writeU32 hc, readBytesWithLen_write _ hml, hm]

/-- A valid bounded block locator decodes back to itself. -/
theorem locator_roundtrip (p : Params) (x : Locator) (rest : List Nat)
    (hl : p.maxLocators < 256) (h : Locator.valid p x = true) :
    Locator.read p (Locator.write x ++ rest) = .ok (x, rest) := by
  obtain ⟨hashes⟩ := x
  simp only [Locator.valid, decide_eq_true_eq] at h
  obtain ⟨hlen, hall⟩ := h
  have hlen256 : hashes.length < 256 := lt_of_le_of_lt hlen hl
  simp only [Locator.write, Locator.read, writeU8, List.cons_append,
    List.nil_append, List.append_assoc]
  rw [rbind_ok _ (readU8_cons _ _), Nat.mod_eq_of_lt hlen256,
    Nat.mod_eq_of_lt hl, if_neg (Nat.not_lt.mpr hlen),
    rbind_ok _ (readCount_writeList (readFixedBytes 32) id hashes rest
      fun a ha rs => readFixedBytes_exact a (hall a ha) rs)]
  rfl

/-- A header list whose element codec round-trips decodes back to itself
when the count fits a u16. -/
theorem headers_roundtrip {α : Type} (cd : FieldCodec α)
    (hrt : ∀ (a : α) (rs : List Nat), cd.read (cd.write a ++ rs) = .ok (a, rs))
    (hs : List α) (rest : List Nat) (hlen : hs.length < 2 ^ 16) :
    Headers.read cd (Headers.write cd hs ++ rest) = .ok (hs, rest) := by
  rw [Headers.write, Headers.read, List.append_assoc,
    rbind_ok _ (readU16_writeU16 hlen _),
    readCount_writeList _ _ hs rest fun a _ rs => hrt a rs]

/-- A valid heartbeat request decodes back to itself. -/
theorem ping_roundtrip (x : Ping) (rest : List Nat) (h : Ping.valid x = true) :
    Ping.read (Ping.write x ++ rest) = .ok (x, rest) := by
  obtain ⟨total_difficulty, height⟩ := x
  simp only [Ping.valid, decide_eq_true_eq] at h
  obtain ⟨hd, hh⟩ := h
  simp [Ping.write, Ping.read, List.append_assoc, rbind, rpure,
    readU64_writeU64 hd, readU64_writeU64 hh]

/-- A valid heartbeat response decodes back to itself. -/
theorem pong_roundtrip (x : Pong) (rest : List Nat) (h : Pong.valid x = true) :
    Pong.read (Pong.write x ++ rest) = .ok (x, rest) := by
  obtain ⟨total_difficulty, height⟩ := x
  simp only [Pong.valid, decide_eq_true_eq] at h
  obtain ⟨hd, hh⟩ := h
  simp [Pong.write, Pong.read, List.append_assoc, rbind, rpure,
    readU64_writeU64 hd, readU64_writeU64 hh]

/-- Reverse lookup inverts the ban-reason code assignment. -/
theorem fromI32_toI32 (r : ReasonForBan) :
    ReasonForBan.fromI32 (ReasonForBan.toI32 r) = some r := by
  cases r <;> decide

/-- A ban notice decodes back to itself. -/
theorem banReason_roundtrip (x : BanReason) (rest : List Nat) :
    BanReason.read (BanReason.write x ++ rest) = .ok (x, rest) := by
  obtain ⟨r⟩ := x
  have h0 : (0 : Int) ≤ ReasonForBan.toI32 r := by cases r <;> decide
  have h8 : ReasonForBan.toI32 r < 8 := by cases r <;> decide
  have hn : (ReasonForBan.toI32 r % 2 ^ 32).toNat = (ReasonForBan.toI32 r).toNat := by
    omega
  have hlt : (ReasonForBan.toI32 r).toNat < 2 ^ 31 := by omega
  have hcast : ((ReasonForBan.toI32 r).toNat : Int) = ReasonForBan.toI32 r := by omega
  simp only [BanReason.write, writeI32, hn, BanReason.read,
    readI32_writeU32_small hlt rest, hcast, fromI32_toI32]

/-- A valid snapshot request decodes back to itself. -/
theorem txHashSetRequest_roundtrip (x : TxHashSetRequest) (rest : List Nat)
    (h : TxHashSetRequest.valid x = true) :
    TxHashSetRequest.read (TxHashSetRequest.write x ++ rest) = .ok (x, rest) := by
  obtain ⟨hash, height⟩ := x
  simp only [TxHashSetRequest.valid, decide_eq_true_eq] at h
  obtain ⟨hh, hht⟩ := h
  simp only [TxHashSetRequest.write, TxHashSetRequest.read, List.append_assoc]
  rw [rbind_ok _ (readFixedBytes_exact hash hh _),
    rbind_ok _ (readU64_writeU64 hht _)]
  rfl

/-- A valid snapshot archive descriptor decodes back to itself. -/
theorem txHashSetArchive_roundtrip (x : TxHashSetArchive) (rest : List Nat)
    (h : TxHashSetArchive.valid x = true) :
    TxHashSetArchive.read (TxHashSetArchive.write x ++ rest) = .ok (x, rest) := by
  obtain ⟨hash, height, bytes⟩ := x
  simp only [TxHashSetArchive.valid, decide_eq_true_eq] at h
  obtain ⟨hh, hht, hb⟩ := h
  simp only [TxHashSetArchive.write, TxHashSetArchive.read, List.append_assoc]
  rw [rbind_ok _ (readFixedBytes_exact hash hh _),
    rbind_ok _ (readU64_writeU64 hht _), rbind_ok _ (readU64_writeU64 hb _)]
  rfl

/-- The empty kernel-data request decodes back to itself. -/
theorem kernelDataRequest_roundtrip (x : KernelDataRequest) (rest : List Nat) :
    KernelDataRequest.read (KernelDataRequest.write x ++ rest) = .ok (x, rest) := rfl

/-- A valid kernel-data response decodes back to itself. -/
theorem kernelDataResponse_roundtrip (x : KernelDataResponse) (rest : List Nat)
    (h : KernelDataResponse.valid x = true) :
    KernelDataResponse.read (KernelDataResponse.write x ++ rest) = .ok (x, rest) := by
  obtain ⟨bytes⟩ := x
  simp only [KernelDataResponse.valid, decide_eq_true_eq] at h
  simp [KernelDataResponse.write, KernelDataResponse.read, rbind, rpure,
    readU64_writeU64 h]

/-- Concrete values for the external constants (the mainnet figures),
used to evaluate the development at specific inputs. -/
def testParams : Params :=
  { maxBlockWeight := 40000, blockOutputWeight := 21, maxPeerAddrs := 256,
    maxLocators := 20, maxBlockHeaders := 512, capMask := 15 }

/-- The first magic byte of every network is a byte value. -/
theorem magic_fst_lt (c : ChainTypes) : (magic c).1 < 256 := by
  cases c <;> decide

/-- The second magic byte of every network is a byte value. -/
theorem magic_snd_lt (c : ChainTypes) : (magic c).2 < 256 := by
  cases c <;> decide

/-- Every message type code is a byte value. -/
theorem toU8_lt (t : MsgType) : MsgType.toU8 t < 256 := by
  cases t <;> decide

/-- Reverse lookup inverts the type-code assignment. -/
theorem fromU8_toU8 (t : MsgType) : MsgType.fromU8 (MsgType.toU8 t) = some t := by
  cases t <;> rfl

/-- A serialized header is always exactly 11 bytes. -/
theorem msgHeader_write_length (h : MsgHeader) : (MsgHeader.write h).length = 11 := by
  simp [MsgHeader.write, writeU8, writeU64, writeBE_length]

/-- Evaluation of the header decoder on a frame carrying the correct magic
bytes, an arbitrary type byte and an encoded u64 length. -/
theorem msgHeaderWrapper_read_eval (p : Params) (c : ChainTypes) (tb len : Nat)
    (rest : List Nat) (hlen : len < 2 ^ 64) :
    MsgHeaderWrapper.read p c
        ((magic c).1 :: (magic c).2 :: tb :: (writeU64 len ++ rest)) =
      match MsgType.fromU8 tb with
      | some mt =>
        if len > max_msg_size p mt * 4 % 2 ^ 64 then .error .tooLargeRead
        else .ok (.Known { magic0 := (magic c).1, magic1 := (magic c).2,
                           msg_type := mt, msg_len := len }, rest)
      | none =>
        if len > default_max_msg_size p * 4 % 2 ^ 64 then .error .tooLargeRead
        else .ok (.Unknown len tb, rest) := by
  rw [MsgHeaderWrapper.read, rbind_ok _ (expectU8_self _ _),
    rbind_ok _ (expectU8_self _ _), rbind_ok _ (readU8_cons _ _),
    rbind_ok _ (readU64_writeU64 hlen _)]
  cases hft : MsgType.fromU8 tb with
  | some mt =>
    simp only [hft]
    by_cases hc : len > max_msg_size p mt * 4 % 2 ^ 64
    · rw [if_pos hc, if_pos hc]; rfl
    · rw [if_neg hc, if_neg hc]; rfl
  | none =>
    simp only [hft]
    by_cases hc : len > default_max_msg_size p * 4 % 2 ^ 64
    · rw [if_pos hc, if_pos hc]; rfl
    · rw [if_neg hc, if_neg hc]; rfl

/-- The peer-address decoder always consumes exactly the bytes the encoder
produced, whatever the field values. -/
theorem peerAddr_read_write_any (a : PeerAddr) (rest : List Nat) :
    ∃ a2, PeerAddr.read (PeerAddr.write a ++ rest) = .ok (a2, rest) := by
  cases a with
  | v4 a0 a1 a2 a3 port =>
    refine ⟨.v4 (a0 % 256) (a1 % 256) (a2 % 256) (a3 % 256) (port % 65536), ?_⟩
    simp [PeerAddr.read, PeerAddr.write, writeU8, rbind, readU8,
      rpure, readU16, writeU16, readBE_writeBE]
  | v6 s0 s1 s2 s3 s4 s5 s6 s7 port =>
    refine ⟨.v6 (s0 % 65536) (s1 % 65536) (s2 % 65536) (s3 % 65536) (s4 % 65536)
      (s5 % 65536) (s6 % 65536) (s7 % 65536) (port % 65536), ?_⟩
    simp [PeerAddr.read, PeerAddr.write, writeU8, rbind, readU8,
      rpure, readU16, writeU16, readBE_writeBE]

/-- C1: decoding a frame header whose type byte maps to a known message
type (under matching magic bytes) fails with the oversize TooLargeRead
error exactly when the declared length exceeds 4 times that type's
maximum body size; any declared length up to and including 4 times the
maximum succeeds at the header stage with the Known result. -/
theorem c1_known_type_oversize (p : Params) (c : ChainTypes) (tb : Nat)
    (t : MsgType) (len : Nat) (rest : List Nat)
    (hf : MsgType.fromU8 tb = some t) (hlen : len < 2 ^ 64)
    (hmax : max_msg_size p t * 4 < 2 ^ 64) :
    (max_msg_size p t * 4 < len →
      MsgHeaderWrapper.read p c
        ((magic c).1 :: (magic c).2 :: tb :: (writeU64 len ++ rest)) =
        .error .tooLargeRead) ∧
    (len ≤ max_msg_size p t * 4 →
      MsgHeaderWrapper.read p c
        ((magic c).1 :: (magic c).2 :: tb :: (writeU64 len ++ rest)) =
        .ok (.Known { magic0 := (magic c).1, magic1 := (magic c).2,
                      msg_type := t, msg_len := len }, rest)) := by
  have he := msgHeaderWrapper_read_eval p c tb len rest hlen
  simp only [hf, gt_iff_lt] at he
  rw [Nat.mod_eq_of_lt hmax] at he
  constructor
  · intro hlt
    rw [he, if_pos hlt]
  · intro hle
    rw [he, if_neg (Nat.not_lt.mpr hle)]

/-- Witness for c1 at the Ping type (code 3, ceiling 16 so 4-times bound
64) on mainnet: declared length 65 is rejected oversize and declared
length 64 decodes to the Known header. -/
theorem c1_witness :
    MsgHeaderWrapper.read testParams ChainTypes.Mainnet
        (97 :: 61 :: 3 :: (writeU64 65 ++ [])) = .error .tooLargeRead ∧
    MsgHeaderWrapper.read testParams ChainTypes.Mainnet
        (97 :: 61 :: 3 :: (writeU64 64 ++ [])) =
      .ok (.Known { magic0 := 97, magic1 := 61, msg_type := .Ping,
                    msg_len := 64 }, []) :=
  ⟨(c1_known_type_oversize testParams .Mainnet 3 .Ping 65 [] (by decide)
      (by decide) (by decide)).1 (by decide),
   (c1_known_type_oversize testParams .Mainnet 3 .Ping 64 [] (by decide)
      (by decide) (by decide)).2 (by decide)⟩

/-- C2: decoding a frame header whose type byte maps to no known message
type (under matching magic bytes) succeeds as the Unknown variant
carrying exactly the declared length and the raw type byte whenever the
declared length is at most 4 times the default maximum message size, and
fails with the oversize TooLargeRead error whenever it exceeds that
bound. -/
theorem c2_unknown_type_tolerance (p : Params) (c : ChainTypes) (tb len : Nat)
    (rest : List Nat) (hf : MsgType.fromU8 tb = none) (hlen : len < 2 ^ 64)
    (hmax : default_max_msg_size p * 4 < 2 ^ 64) :
    (len ≤ default_max_msg_size p * 4 →
      MsgHeaderWrapper.read p c
        ((magic c).1 :: (magic c).2 :: tb :: (writeU64 len ++ rest)) =
        .ok (.Unknown len tb, rest)) ∧
    (default_max_msg_size p * 4 < len →
      MsgHeaderWrapper.read p c
        ((magic c).1 :: (magic c).2 :: tb :: (writeU64 len ++ rest)) =
        .error .tooLargeRead) := by
  have he := msgHeaderWrapper_read_eval p c tb len rest hlen
  simp only [hf, gt_iff_lt] at he
  rw [Nat.mod_eq_of_lt hmax] at he
  constructor
  · intro hle
    rw [he, if_neg (Nat.not_lt.mpr hle)]
  · intro hlt
    rw [he, if_pos hlt]

/-- Witness for c2 with the unregistered type byte 200 on mainnet:
declared length 10 decodes as Unknown(10, 200); a declared length one
above 4 times the default ceiling (5392128 for the concrete parameters)
is rejected oversize. -/
theorem c2_witness :
    MsgHeaderWrapper.read testParams ChainTypes.Mainnet
        (97 :: 61 :: 200 :: (writeU64 10 ++ [])) = .ok (.Unknown 10 200, []) ∧
    MsgHeaderWrapper.read testParams ChainTypes.Mainnet
        (97 :: 61 :: 200 :: (writeU64 5392129 ++ [])) = .error .tooLargeRead :=
  ⟨(c2_unknown_type_tolerance testParams .Mainnet 200 10 [] (by decide)
      (by decide) (by decide)).1 (by decide),
   (c2_unknown_type_tolerance testParams .Mainnet 200 5392129 [] (by decide)
      (by decide) (by decide)).2 (by decide)⟩

/-- C3: for every known message type and every length not exceeding 4
times that type's maximum body size, encoding a header built for that
type and length and then decoding the resulting 11 bytes under the same
network magic yields the Known variant with the identical type and
length. -/
theorem c3_header_roundtrip (p : Params) (c : ChainTypes) (t : MsgType)
    (len : Nat) (rest : List Nat) (hmax : max_msg_size p t * 4 < 2 ^ 64)
    (hlen : len ≤ max_msg_size p t * 4) :
    MsgHeaderWrapper.read p c (MsgHeader.write (MsgHeader.new c t len) ++ rest) =
      .ok (.Known (MsgHeader.new c t len), rest) := by
  have hlen64 : len < 2 ^ 64 := lt_of_le_of_lt hlen hmax
  have hw : MsgHeader.write (MsgHeader.new c t len) ++ rest =
      (magic c).1 :: (magic c).2 :: MsgType.toU8 t :: (writeU64 len ++ rest) := by
    simp [MsgHeader.write, MsgHeader.new, writeU8,
      Nat.mod_eq_of_lt (magic_fst_lt c), Nat.mod_eq_of_lt (magic_snd_lt c),
      Nat.mod_eq_of_lt (toU8_lt t)]
  rw [hw]
  have he := msgHeaderWrapper_read_eval p c (MsgType.toU8 t) len rest hlen64
  simp only [fromU8_toU8, gt_iff_lt] at he
  rw [Nat.mod_eq_of_lt hmax] at he
  rw [he, if_neg (Nat.not_lt.mpr hlen)]
  rfl

/-- Witness for c3 at the Shake type (ceiling 88, 4-times bound 352) on
floonet with the boundary length 352. -/
theorem c3_witness :
    MsgHeaderWrapper.read testParams ChainTypes.Floonet
        (MsgHeader.write (MsgHeader.new ChainTypes.Floonet MsgType.Shake 352) ++ []) =
      .ok (.Known (MsgHeader.new ChainTypes.Floonet MsgType.Shake 352), []) :=
  c3_header_roundtrip testParams .Floonet .Shake 352 [] (by decide) (by decide)

/-- C4: writing a message whose attachment source yields 20000 bytes with
the fixed 8 KiB chunk size performs one framed write of the 11-byte
header plus body followed by exactly three attachment writes of sizes
8192, 8192 and 3616; the quiet counter increases by exactly 20000 and
the sent (primary) counter by exactly 11 plus the body length. -/
theorem c4_attachment_chunking (h : MsgHeader) (body : List Nat) (v : Nat) :
    write_message { header := h, body := body,
                    attachment := some { size := 20000 }, version := v } =
      { writes := [11 + body.length, 8192, 8192, 3616],
        sent := 11 + body.length, quiet := 20000 } := by
  have ha : attachmentWrites 20000 = [8192, 8192, 3616] := by decide
  have hsum : ([8192, 8192, 3616] : List Nat).sum = 20000 := by decide
  simp [write_message, MsgHeader.LEN, msgHeader_write_length, ha, hsum]

/-- A concrete handshake offer on which the claimed and the actual field
order of the encoder produce different bytes: its genesis hash is 32 one
bytes while every other numeric field is zero, so the position of the
genesis block in the output distinguishes the orders. -/
def handCex : Hand :=
  { version := 0, capabilities := 0, nonce := 0, genesis := List.replicate 32 1,
    total_difficulty := 0, sender_addr := .v4 0 0 0 0 0,
    receiver_addr := .v4 0 0 0 0 0, user_agent := [] }

/-- Counterexample to C5 as stated: the Hand encoder does not write the
genesis identifier between the nonce and the accumulated difficulty; on
the concrete handshake offer above the bytes differ from the claimed
field order (the code writes the genesis hash last). -/
theorem c5_counterexample : Hand.write handCex ≠ handClaimOrderWrite handCex := by
  decide

/-- C5 (amended): the Hand encoder writes protocol version, capability
bitset, random nonce, accumulated difficulty, sender address, receiver
address, the length-prefixed user-agent string, and the genesis
identifier last; and decoding a user-agent field that is not valid UTF-8
fails with a corrupted-data error. -/
theorem c5_hand_order_and_utf8 :
    (∀ x : Hand, Hand.write x =
      writeU32 x.version ++ writeU32 x.capabilities ++ writeU64 x.nonce ++
      writeU64 x.total_difficulty ++ PeerAddr.write x.sender_addr ++
      PeerAddr.write x.receiver_addr ++ writeBytes x.user_agent ++ x.genesis) ∧
    (∀ (p : Params) (version capab nonce diff : Nat) (sa ra : PeerAddr)
      (ua tail : List Nat), ua.length < 2 ^ 64 → utf8Valid ua = false →
      Hand.read p (writeU32 version ++ writeU32 capab ++ writeU64 nonce ++
        writeU64 diff ++ PeerAddr.write sa ++ PeerAddr.write ra ++
        writeBytes ua ++ tail) = .error .corruptedData) := by
  constructor
  · intro x
    rfl
  · intro p version capab nonce diff sa ra ua tail hul hbad
    obtain ⟨sa2, hsa⟩ := peerAddr_read_write_any sa
      (PeerAddr.write ra ++ (writeBytes ua ++ tail))
    obtain ⟨ra2, hra⟩ := peerAddr_read_write_any ra (writeBytes ua ++ tail)
    simp only [Hand.read, List.append_assoc, readU32, readU64, writeU32, writeU64]
    rw [rbind_ok _ (readBE_writeBE 4 version _), rbind_ok _ (readBE_writeBE 4 capab _),
      rbind_ok _ (readBE_writeBE 8 nonce _), rbind_ok _ (readBE_writeBE 8 diff _),
      rbind_ok _ hsa, rbind_ok _ hra]
    rw [rbind_ok _ (readBytesWithLen_write ua hul tail), hbad]
    rfl

/-- Witness for c5: the encoder equation evaluated at the concrete
handshake offer, and the decoder rejecting the single byte 255 (not
valid UTF-8) as user agent with a corrupted-data error. -/
theorem c5_witness :
    (Hand.write handCex =
      writeU32 handCex.version ++ writeU32 handCex.capabilities ++
      writeU64 handCex.nonce ++ writeU64 handCex.total_difficulty ++
      PeerAddr.write handCex.sender_addr ++ PeerAddr.write handCex.receiver_addr ++
      writeBytes handCex.user_agent ++ handCex.genesis) ∧
    Hand.read testParams (writeU32 0 ++ writeU32 0 ++ writeU64 0 ++ writeU64 0 ++
      PeerAddr.write (.v4 0 0 0 0 0) ++ PeerAddr.write (.v4 0 0 0 0 0) ++
      writeBytes [255] ++ []) = .error .corruptedData :=
  ⟨c5_hand_order_and_utf8.1 handCex,
   c5_hand_order_and_utf8.2 testParams 0 0 0 0 (.v4 0 0 0 0 0) (.v4 0 0 0 0 0)
     [255] [] (by decide) (by decide)⟩

/-- C6: a peer-address list whose u32 element count exceeds the configured
maximum, and a block locator whose u8 element count exceeds the (byte
cast of the) configured locator maximum, fail decode with the oversize
TooLargeRead error; a peer-address list with element count zero decodes
to the empty list without consuming any further bytes. -/
theorem c6_bounded_lists (p : Params) :
    (∀ (count : Nat) (rest : List Nat), count < 2 ^ 32 → p.maxPeerAddrs < count →
      PeerAddrs.read p (writeU32 count ++ rest) = .error .tooLargeRead) ∧
    (∀ rest : List Nat,
      PeerAddrs.read p (writeU32 0 ++ rest) = .ok ({ peers := [] }, rest)) ∧
    (∀ (count : Nat) (rest : List Nat), p.maxLocators < 256 → count < 256 →
      p.maxLocators < count →
      Locator.read p (writeU8 count ++ rest) = .error .tooLargeRead) := by
  refine ⟨?_, ?_, ?_⟩
  · intro count rest h32 hgt
    rw [PeerAddrs.read, rbind_ok _ (readU32_writeU32 h32 _), if_pos hgt]
    rfl
  · intro rest
    have h0 : (0 : Nat) < 2 ^ 32 := by norm_num
    rw [PeerAddrs.read, rbind_ok _ (readU32_writeU32 h0 _),
      if_neg (Nat.not_lt_zero _), if_pos rfl]
    rfl
  · intro count rest hml h256 hgt
    simp only [Locator.read, writeU8, List.cons_append, List.nil_append]
    rw [rbind_ok _ (readU8_cons _ _), Nat.mod_eq_of_lt h256,
      Nat.mod_eq_of_lt hml, if_pos hgt]
    rfl

/-- Witness for c6 with the concrete bounds 256 peer addresses and 20
locator hashes: a peer count of 257 and a locator count of 21 are both
rejected oversize, and a zero peer count decodes to the empty list
leaving an unread trailing byte in place. -/
theorem c6_witness :
    PeerAddrs.read testParams (writeU32 257 ++ [9]) = .error .tooLargeRead ∧
    PeerAddrs.read testParams (writeU32 0 ++ [9]) = .ok ({ peers := [] }, [9]) ∧
    Locator.read testParams (writeU8 21 ++ [9]) = .error .tooLargeRead :=
  ⟨(c6_bounded_lists testParams).1 257 [9] (by decide) (by decide),
   (c6_bounded_lists testParams).2.1 [9],
   (c6_bounded_lists testParams).2.2 21 [9] (by decide) (by decide) (by decide)⟩

/-- C7: when decoding a ban notice, a failure of the underlying signed
32-bit read is not propagated: the decoder substitutes the sentinel code
0 (which maps to the None reason) and succeeds without consuming input;
a successfully read code that maps to no known ban-reason variant makes
the decode fail with a corrupted-data error. -/
theorem c7_ban_reason_decode (s : List Nat) :
    (∀ e : SerError, readI32 s = .error e →
      BanReason.read s = .ok ({ ban_reason := ReasonForBan.None }, s)) ∧
    (∀ (code : Int) (rest : List Nat), readI32 s = .ok (code, rest) →
      ReasonForBan.fromI32 code = none →
      BanReason.read s = .error .corruptedData) := by
  constructor
  · intro e he
    simp [BanReason.read, he, ReasonForBan.fromI32]
  · intro code rest hc hnone
    simp [BanReason.read, hc, hnone]

/-- Witness for c7: the empty stream makes the i32 read fail and the ban
notice still decodes to the None reason, while the in-range but unknown
code 100 is rejected as corrupted data. -/
theorem c7_witness :
    BanReason.read [] = .ok ({ ban_reason := ReasonForBan.None }, []) ∧
    BanReason.read (writeI32 100) = .error .corruptedData :=
  ⟨(c7_ban_reason_decode []).1 .ioErr rfl,
   (c7_ban_reason_decode (writeI32 100)).2 100 [] rfl (by decide)⟩

/-- C8: read_expected_header returns the decoded header exactly when the
stream decodes to a Known header of the caller-supplied expected type;
a Known header of a different type and an Unknown header both fail with
the distinct bad-message error. -/
theorem c8_read_expected_header (p : Params) (c : ChainTypes)
    (header_type : MsgType) (s : List Nat) :
    (∀ (h : MsgHeader) (rest : List Nat),
      MsgHeaderWrapper.read p c s = .ok (.Known h, rest) →
      h.msg_type = header_type →
      read_expected_header p c header_type s = .ok (h, rest)) ∧
    (∀ (h : MsgHeader) (rest : List Nat),
      MsgHeaderWrapper.read p c s = .ok (.Known h, rest) →
      h.msg_type ≠ header_type →
      read_expected_header p c header_type s = .error .badMessage) ∧
    (∀ (len tb : Nat) (rest : List Nat),
      MsgHeaderWrapper.read p c s = .ok (.Unknown len tb, rest) →
      read_expected_header p c header_type s = .error .badMessage) := by
  refine ⟨?_, ?_, ?_⟩
  · intro h rest hr he
    simp [read_expected_header, hr, he]
  · intro h rest hr hne
    simp [read_expected_header, hr, hne]
  · intro len tb rest hr
    simp [read_expected_header, hr]

/-- Witness for c8 on mainnet: a Ping header satisfies an expected-Ping
read and is returned; the same frame fails an expected-Pong read with
bad-message; an unknown type byte 99 fails an expected-Ping read with
bad-message. -/
theorem c8_witness :
    read_expected_header testParams ChainTypes.Mainnet MsgType.Ping
        (97 :: 61 :: 3 :: writeU64 0) =
      .ok ({ magic0 := 97, magic1 := 61, msg_type := .Ping, msg_len := 0 }, []) ∧
    read_expected_header testParams ChainTypes.Mainnet MsgType.Pong
        (97 :: 61 :: 3 :: writeU64 0) = .error .badMessage ∧
    read_expected_header testParams ChainTypes.Mainnet MsgType.Ping
        (97 :: 61 :: 99 :: writeU64 0) = .error .badMessage :=
  ⟨(c8_read_expected_header testParams .Mainnet .Ping (97 :: 61 :: 3 :: writeU64 0)).1
      { magic0 := 97, magic1 := 61, msg_type := .Ping, msg_len := 0 } []
      rfl rfl,
   (c8_read_expected_header testParams .Mainnet .Pong (97 :: 61 :: 3 :: writeU64 0)).2.1
      { magic0 := 97, magic1 := 61, msg_type := .Ping, msg_len := 0 } []
      rfl (by decide),
   (c8_read_expected_header testParams .Mainnet .Ping (97 :: 61 :: 99 :: writeU64 0)).2.2
      0 99 [] rfl⟩

/-- C10: into_parts returns only the header, the body bytes and the
protocol version, so an attachment previously added is silently dropped
(the parts are the same with or without it), and a message rebuilt by
from_parts never carries an attachment. -/
theorem c10_into_parts_drops_attachment (m : Msg) (f : File) (h : MsgHeader)
    (b : List Nat) (v : Nat) :
    Msg.into_parts (Msg.add_attachment m f) = Msg.into_parts m ∧
    (Msg.from_parts h b v).attachment = none ∧
    (Msg.from_parts m.header m.body m.version).attachment = none :=
  ⟨rfl, rfl, rfl⟩

/-- C9: for every payload type of this protocol layer and arbitrary valid
field values x, decoding the encoding of x yields x back, the remaining
stream untouched: handshake offer and reply, peer-discovery request and
response, communication error, block locator, header list (for any
element codec satisfying the field read/write contract), heartbeat
request and response, ban notice, snapshot request and archive
descriptor, and kernel-data request and response. -/
theorem c9_payload_roundtrips (p : Params) :
    (∀ (x : Hand) (rest : List Nat), Hand.valid p x = true →
      Hand.read p (Hand.write x ++ rest) = .ok (x, rest)) ∧
    (∀ (x : Shake) (rest : List Nat), Shake.valid p x = true →
      Shake.read p (Shake.write x ++ rest) = .ok (x, rest)) ∧
    (∀ (x : GetPeerAddrs) (rest : List Nat), GetPeerAddrs.valid p x = true →
      GetPeerAddrs.read p (GetPeerAddrs.write x ++ rest) = .ok (x, rest)) ∧
    (∀ (x : PeerAddrs) (rest : List Nat), p.maxPeerAddrs < 2 ^ 32 →
      PeerAddrs.valid p x = true →
      PeerAddrs.read p (PeerAddrs.write x ++ rest) = .ok (x, rest)) ∧
    (∀ (x : PeerError) (rest : List Nat), PeerError.valid x = true →
      PeerError.read (PeerError.write x ++ rest) = .ok (x, rest)) ∧
    (∀ (x : Locator) (rest : List Nat), p.maxLocators < 256 →
      Locator.valid p x = true →
      Locator.read p (Locator.write x ++ rest) = .ok (x, rest)) ∧
    (∀ (α : Type) (cd : FieldCodec α),
      (∀ (a : α) (rs : List Nat), cd.read (cd.write a ++ rs) = .ok (a, rs)) →
      ∀ (hs : List α) (rest : List Nat), hs.length < 2 ^ 16 →
      Headers.read cd (Headers.write cd hs ++ rest) = .ok (hs, rest)) ∧
    (∀ (x : Ping) (rest : List Nat), Ping.valid x = true →
      Ping.read (Ping.write x ++ rest) = .ok (x, rest)) ∧
    (∀ (x : Pong) (rest : List Nat), Pong.valid x = true →
      Pong.read (Pong.write x ++ rest) = .ok (x, rest)) ∧
    (∀ (x : BanReason) (rest : List Nat),
      BanReason.read (BanReason.write x ++ rest) = .ok (x, rest)) ∧
    (∀ (x : TxHashSetRequest) (rest : List Nat), TxHashSetRequest.valid x = true →
      TxHashSetRequest.read (TxHashSetRequest.write x ++ rest) = .ok (x, rest)) ∧
    (∀ (x : TxHashSetArchive) (rest : List Nat), TxHashSetArchive.valid x = true →
      TxHashSetArchive.read (TxHashSetArchive.write x ++ rest) = .ok (x, rest)) ∧
    (∀ (x : KernelDataRequest) (rest : List Nat),
      KernelDataRequest.read (KernelDataRequest.write x ++ rest) = .ok (x, rest)) ∧
    (∀ (x : KernelDataResponse) (rest : List Nat), KernelDataResponse.valid x = true →
      KernelDataResponse.read (KernelDataResponse.write x ++ rest) = .ok (x, rest)) :=
  ⟨fun x rest h => hand_roundtrip p x rest h,
   fun x rest h => shake_roundtrip p x rest h,
   fun x rest h => getPeerAddrs_roundtrip p x rest h,
   fun x rest hm h => peerAddrs_roundtrip p x rest hm h,
   fun x rest h => peerError_roundtrip x rest h,
   fun x rest hm h => locator_roundtrip p x rest hm h,
   fun _ cd hrt hs rest hl => headers_roundtrip cd hrt hs rest hl,
   fun x rest h => ping_roundtrip x rest h,
   fun x rest h => pong_roundtrip x rest h,
   fun x rest => banReason_roundtrip x rest,
   fun x rest h => txHashSetRequest_roundtrip x rest h,
   fun x rest h => txHashSetArchive_roundtrip x rest h,
   fun x rest => kernelDataRequest_roundtrip x rest,
   fun x rest h => kernelDataResponse_roundtrip x rest h⟩

/-- A concrete handshake offer with the fields of the spec scenario:
nonce 0x1234, all-zero genesis hash, total difficulty 1000, sender
127.0.0.1:3414, receiver 127.0.0.1:3415 and an ASCII user agent. -/
def handW : Hand :=
  { version := 1, capabilities := 1, nonce := 4660,
    genesis := List.replicate 32 0, total_difficulty := 1000,
    sender_addr := .v4 127 0 0 1 3414, receiver_addr := .v4 127 0 0 1 3415,
    user_agent := [116, 101, 115, 116] }

/-- A concrete handshake reply. -/
def shakeW : Shake :=
  { version := 1, capabilities := 2, genesis := List.replicate 32 7,
    total_difficulty := 5, user_agent := [97] }

/-- A concrete peer-address list with one v4 and one v6 entry. -/
def peerAddrsW : PeerAddrs :=
  { peers := [.v4 10 0 0 1 3414, .v6 1 2 3 4 5 6 7 8 3415] }

/-- A concrete two-hash block locator. -/
def locatorW : Locator :=
  { hashes := [List.replicate 32 3, List.replicate 32 4] }

/-- A trivially round-tripping element codec standing in for the external
block-header field type of the header-list payload. -/
def natCodec : FieldCodec Nat :=
  { write := fun n => [n], read := readU8 }

/-- Witness for c9: every payload conjunct evaluated at a concrete valid
value with the concrete parameters. -/
theorem c9_witness :
    Hand.read testParams (Hand.write handW ++ []) = .ok (handW, []) ∧
    Shake.read testParams (Shake.write shakeW ++ []) = .ok (shakeW, []) ∧
    GetPeerAddrs.read testParams (GetPeerAddrs.write { capabilities := 3 } ++ []) =
      .ok ({ capabilities := 3 }, []) ∧
    PeerAddrs.read testParams (PeerAddrs.write peerAddrsW ++ []) =
      .ok (peerAddrsW, []) ∧
    PeerError.read (PeerError.write { code := 7, message := [111, 107] } ++ []) =
      .ok ({ code := 7, message := [111, 107] }, []) ∧
    Locator.read testParams (Locator.write locatorW ++ []) = .ok (locatorW, []) ∧
    Headers.read natCodec (Headers.write natCodec [5, 7] ++ []) = .ok ([5, 7], []) ∧
    Ping.read (Ping.write { total_difficulty := 9, height := 11 } ++ []) =
      .ok ({ total_difficulty := 9, height := 11 }, []) ∧
    Pong.read (Pong.write { total_difficulty := 13, height := 17 } ++ []) =
      .ok ({ total_difficulty := 13, height := 17 }, []) ∧
    BanReason.read (BanReason.write { ban_reason := .ManualBan } ++ []) =
      .ok ({ ban_reason := .ManualBan }, []) ∧
    TxHashSetRequest.read
        (TxHashSetRequest.write { hash := List.replicate 32 5, height := 42 } ++ []) =
      .ok ({ hash := List.replicate 32 5, height := 42 }, []) ∧
    TxHashSetArchive.read
        (TxHashSetArchive.write
          { hash := List.replicate 32 6, height := 43, bytes := 999 } ++ []) =
      .ok ({ hash := List.replicate 32 6, height := 43, bytes := 999 }, []) ∧
    KernelDataRequest.read (KernelDataRequest.write {} ++ []) = .ok ({}, []) ∧
    KernelDataResponse.read (KernelDataResponse.write { bytes := 20000 } ++ []) =
      .ok ({ bytes := 20000 }, []) := by
  obtain ⟨h1, h2, h3, h4, h5, h6, h7, h8, h9, h10, h11, h12, h13, h14⟩ :=
    c9_payload_roundtrips testParams
  exact ⟨h1 handW [] (by decide), h2 shakeW [] (by decide),
    h3 { capabilities := 3 } [] (by decide),
    h4 peerAddrsW [] (by decide) (by decide),
    h5 { code := 7, message := [111, 107] } [] (by decide),
    h6 locatorW [] (by decide) (by decide),
    h7 Nat natCodec (fun a rs => rfl) [5, 7] [] (by decide),
    h8 { total_difficulty := 9, height := 11 } [] (by decide),
    h9 { total_difficulty := 13, height := 17 } [] (by decide),
    h10 { ban_reason := .ManualBan } [],
    h11 { hash := List.replicate 32 5, height := 42 } [] (by decide),
    h12 { hash := List.replicate 32 6, height := 43, bytes := 999 } [] (by decide),
    h13 {} [],
    h14 { bytes := 20000 } [] (by decide)⟩
